import Mathlib

/-!
Verification of the `cedar-validate` tooling (repository `quiltdata/raja`).

The repository contains two small command-line tools built on top of the
external `cedar_policy` engine:

* `src/tools/cedar-validate/src/main.rs` — the validator: discovers
  `*.cedar` files under a policy root, aggregates them into one document
  (skipping `schema.cedar`), and submits the aggregate to the engine's
  policy-set parser, mapping every outcome to a process exit code.
* `src/tools/cedar-validate/src/bin/cedar_parse.rs` — the converter:
  reads one policy from standard input, parses it, serializes it to the
  engine's JSON representation and prints one encoded line.

The embedding models file contents and text as `List Char` (Rust `String`s
iterated by Unicode scalar value), and the external engine as abstract
functions supplied as parameters, mirroring the spec's black-box contract.
Process effects are made explicit: the result of a run records the exit
code, the lines written to standard output, the diagnostics written to the
error stream, and (for the converter) the stages entered, in order.
Panics (`expect` / `unwrap_or_else(panic)`) are outside the model, as the
spec itself excludes them from the exit-code taxonomy.
-/

namespace Raja

/-- Text, modelled as the sequence of Unicode scalar values of a Rust
`String`. -/
abbrev Str := List Char

/-- Rust `s.ends_with('\n')`: the last character is a newline. -/
def endsWithNl (s : Str) : Bool :=
  match s.getLast? with
  | some c => c = '\n'
  | none => false

/-- Rust `str::trim`: drop leading and trailing whitespace. -/
def trimStr (s : Str) : Str :=
  ((s.dropWhile Char.isWhitespace).reverse.dropWhile Char.isWhitespace).reverse

/-! ## Validator (`main.rs`) -/

/-- A discovered policy file: its file name and its contents
(`fs::read_to_string` succeeded; a read failure panics and is outside the
model). -/
structure PolicyFile where
  name : String
  content : Str
deriving DecidableEq

/-- One entry produced by the `glob` iterator: either a path (with the file
already read) or a glob resolution error carrying its message. -/
inductive GlobEntry where
  | ok (f : PolicyFile)
  | err (msg : String)
deriving DecidableEq

/-- The reserved schema file name, excluded from aggregation
(`main.rs` line 30). -/
def schemaName : String := "schema.cedar"

/-- Diagnostics the validator writes to the error stream (`eprintln!`). -/
inductive Diag where
  | dirNotFound (root : String)
  | globResolveFailed (msg : String)
  | noPoliciesFound (root : String)
  | parseFailed (msg : String)
deriving DecidableEq

/-- Observable result of one validator run: exit code, whether the engine's
policy-set parser was invoked, standard output lines, error-stream lines. -/
structure ValidResult where
  exitCode : Nat
  parserInvoked : Bool
  stdout : List Str
  stderr : List Diag
deriving DecidableEq

/-- The loop body of `main.rs` lines 33–38: append the file's contents to
the buffer and, if the contents do not end in a newline, push one. -/
def appendFile (combined : Str) (content : Str) : Str :=
  let combined2 := combined ++ content
  if endsWithNl content then combined2 else combined2 ++ ['\n']

/-- One file's contribution to the aggregated document: its contents,
newline-terminated. -/
def contribution (content : Str) : Str :=
  if endsWithNl content then content else content ++ ['\n']

/-- One iteration of the loop of `main.rs` lines 22–39 on an `Ok` entry:
skip the file named `schema.cedar`, otherwise append it. -/
def aggStep (combined : Str) (f : PolicyFile) : Str :=
  if f.name == schemaName then combined else appendFile combined f.content

/-- Aggregation over the discovered files (the loop of `main.rs` lines
22–39 restricted to the `Ok` path): fold `aggStep` over the files starting
from the empty buffer. -/
def aggregateFiles (files : List PolicyFile) : Str :=
  files.foldl aggStep []

/-- The message of the first glob resolution error, if any (the loop exits
at the first `Err` entry, `main.rs` lines 25–28). -/
def firstGlobErr : List GlobEntry → Option String
  | [] => none
  | GlobEntry.err m :: _ => some m
  | GlobEntry.ok _ :: rest => firstGlobErr rest

/-- The files carried by the `Ok` entries, in enumeration order. -/
def okFiles : List GlobEntry → List PolicyFile
  | [] => []
  | GlobEntry.err _ :: rest => okFiles rest
  | GlobEntry.ok f :: rest => f :: okFiles rest

/-- `main.rs` lines 41–49: after the loop, report "no policies found" when
the buffer trims to empty (exit 4), otherwise submit the buffer to the
engine's policy-set parser (exit 1 on rejection, exit 0 on success). -/
def finishValidation (parsePolicySet : Str → Except String Unit)
    (rootDir : String) (combined : Str) : ValidResult :=
  if (trimStr combined).isEmpty then
    { exitCode := 4, parserInvoked := false, stdout := [],
      stderr := [Diag.noPoliciesFound rootDir] }
  else
    match parsePolicySet combined with
    | Except.ok _ =>
        { exitCode := 0, parserInvoked := true, stdout := [], stderr := [] }
    | Except.error e =>
        { exitCode := 1, parserInvoked := true, stdout := [],
          stderr := [Diag.parseFailed e] }

/-- The glob loop of `main.rs` lines 22–39: exit 3 at the first glob error,
skip `schema.cedar`, append every other file, then finish. -/
def processEntries (parsePolicySet : Str → Except String Unit)
    (rootDir : String) : List GlobEntry → Str → ValidResult
  | [], combined => finishValidation parsePolicySet rootDir combined
  | GlobEntry.err m :: _, _ =>
      { exitCode := 3, parserInvoked := false, stdout := [],
        stderr := [Diag.globResolveFailed m] }
  | GlobEntry.ok f :: rest, combined =>
      processEntries parsePolicySet rootDir rest (aggStep combined f)

/-- `main` of `main.rs`: exit 2 when the root is not a directory, otherwise
run the glob loop starting from an empty buffer. -/
def validatorMain (parsePolicySet : Str → Except String Unit)
    (rootDir : String) (rootIsDir : Bool) (entries : List GlobEntry) :
    ValidResult :=
  if rootIsDir then
    processEntries parsePolicySet rootDir entries []
  else
    { exitCode := 2, parserInvoked := false, stdout := [],
      stderr := [Diag.dirNotFound rootDir] }

/-- `main.rs` line 9: the policy root is the first CLI argument (index 1 of
`env::args`, index 0 being the program name), defaulting to `policies`. -/
def policyDirArg (args : List String) : String :=
  (args.get? 1).getD "policies"

/-- The whole validator run as a function of the CLI arguments and of the
environment, the latter given as two oracles: whether a path is a
directory, and the glob entries enumerated for a root. -/
def validatorCli (parsePolicySet : Str → Except String Unit)
    (args : List String) (isDir : String → Bool)
    (entriesFor : String → List GlobEntry) : ValidResult :=
  let policyDir := policyDirArg args
  validatorMain parsePolicySet policyDir (isDir policyDir) (entriesFor policyDir)

/-! ## Converter (`bin/cedar_parse.rs`) -/

/-- The four stages of the converter pipeline (§4.4 of the spec):
Read → Parse → Serialize → Emit. -/
inductive CStage where
  | read
  | parse
  | serialize
  | emit
deriving DecidableEq

/-- Diagnostics the converter writes to the error stream. -/
inductive CDiag where
  | readFailed
  | emptyInput
  | parseFailed (msg : String)
  | serializeFailed (msg : String)
  | encodeFailed (msg : String)
deriving DecidableEq

/-- Observable result of one converter run: exit code, standard output
lines (`println!` writes one line each), error-stream lines, and the stages
entered, in order. -/
structure ConvResult where
  exitCode : Nat
  stdout : List Str
  stderr : List CDiag
  stages : List CStage
deriving DecidableEq

/-- `main` of `cedar_parse.rs`, parametrised by the engine: `P` is the
engine's policy type, `J` its JSON value type; `stdin` is the result of
`read_to_string`, `parsePolicy` is `Policy::parse(None, ·)`, `toJson` is
`Policy::to_json`, `encodeJson` is `serde_json::to_string`. -/
def converterMain {P J : Type} (stdin : Except String Str)
    (parsePolicy : Str → Except String P)
    (toJson : P → Except String J)
    (encodeJson : J → Except String Str) : ConvResult :=
  match stdin with
  | Except.error _ =>
      { exitCode := 2, stdout := [], stderr := [CDiag.readFailed],
        stages := [CStage.read] }
  | Except.ok input =>
      let policySrc := trimStr input
      if policySrc.isEmpty then
        { exitCode := 3, stdout := [], stderr := [CDiag.emptyInput],
          stages := [CStage.read] }
      else
        match parsePolicy policySrc with
        | Except.error e =>
            { exitCode := 1, stdout := [], stderr := [CDiag.parseFailed e],
              stages := [CStage.read, CStage.parse] }
        | Except.ok policy =>
            match toJson policy with
            | Except.error e =>
                { exitCode := 4, stdout := [],
                  stderr := [CDiag.serializeFailed e],
                  stages := [CStage.read, CStage.parse, CStage.serialize] }
            | Except.ok json =>
                match encodeJson json with
                | Except.error e =>
                    { exitCode := 5, stdout := [],
                      stderr := [CDiag.encodeFailed e],
                      stages := [CStage.read, CStage.parse,
                                 CStage.serialize, CStage.emit] }
                | Except.ok output =>
                    { exitCode := 0, stdout := [output], stderr := [],
                      stages := [CStage.read, CStage.parse,
                                 CStage.serialize, CStage.emit] }

/-! ## Helper lemmas about aggregation -/

/-- A file's contribution, when kept: nothing for the schema file, the
newline-terminated contents otherwise. -/
def aggPiece (f : PolicyFile) : Str :=
  if f.name == schemaName then [] else contribution f.content

theorem appendFile_eq (combined content : Str) :
    appendFile combined content = combined ++ contribution content := by
  unfold appendFile contribution
  by_cases h : endsWithNl content <;> simp [h]

theorem aggStep_eq (combined : Str) (f : PolicyFile) :
    aggStep combined f = combined ++ aggPiece f := by
  unfold aggStep aggPiece
  by_cases h : f.name == schemaName <;> simp [h, appendFile_eq]

theorem foldl_aggStep (files : List PolicyFile) (combined : Str) :
    files.foldl aggStep combined = combined ++ (files.map aggPiece).flatten := by
  induction files generalizing combined with
  | nil => simp
  | cons f fs ih => simp [aggStep_eq, ih, List.append_assoc]

theorem aggregateFiles_eq_join (files : List PolicyFile) :
    aggregateFiles files = (files.map aggPiece).flatten := by
  simpa [aggregateFiles] using foldl_aggStep files []

theorem join_aggPiece_eq_filter (files : List PolicyFile) :
    (files.map aggPiece).flatten =
      ((files.filter fun f => !(f.name == schemaName)).map
        fun f => contribution f.content).flatten := by
  induction files with
  | nil => rfl
  | cons f fs ih =>
      by_cases h : f.name == schemaName <;>
        simp [aggPiece, h, List.filter_cons, ih]

theorem endsWithNl_contribution (content : Str) :
    endsWithNl (contribution content) = true := by
  unfold contribution
  cases h : endsWithNl content
  · simp only [h, Bool.false_eq_true, if_false]
    unfold endsWithNl
    rw [List.getLast?_concat]
    simp
  · simp [h]

theorem contribution_ne_nil (content : Str) : contribution content ≠ [] := by
  intro h
  have := endsWithNl_contribution content
  rw [h] at this
  simp [endsWithNl] at this

theorem endsWithNl_append (a b : Str) (hb : b ≠ []) :
    endsWithNl (a ++ b) = endsWithNl b := by
  unfold endsWithNl
  rw [List.getLast?_append_of_ne_nil a hb]

theorem endsWithNl_join (ps : List Str)
    (h : ∀ p ∈ ps, endsWithNl p = true) (hne : ps.flatten ≠ []) :
    endsWithNl ps.flatten = true := by
  induction ps with
  | nil => simp at hne
  | cons p ps ih =>
      rw [List.flatten_cons]
      by_cases hj : ps.flatten = []
      · rw [hj, List.append_nil]
        exact h p (List.mem_cons_self p ps)
      · rw [endsWithNl_append p ps.flatten hj]
        exact ih (fun q hq => h q (List.mem_cons_of_mem p hq)) hj

/-! ## Helper lemmas about the validator loop -/

theorem processEntries_globErr (parsePolicySet : Str → Except String Unit)
    (rootDir : String) (entries : List GlobEntry) (m : String)
    (h : firstGlobErr entries = some m) :
    ∀ combined : Str,
      processEntries parsePolicySet rootDir entries combined =
        { exitCode := 3, parserInvoked := false, stdout := [],
          stderr := [Diag.globResolveFailed m] } := by
  induction entries with
  | nil => simp [firstGlobErr] at h
  | cons e rest ih =>
      intro combined
      cases e with
      | err m' =>
          simp only [firstGlobErr, Option.some.injEq] at h
          subst h
          rfl
      | ok f =>
          simp only [firstGlobErr] at h
          exact ih h (aggStep combined f)

theorem processEntries_noErr (parsePolicySet : Str → Except String Unit)
    (rootDir : String) (entries : List GlobEntry)
    (h : firstGlobErr entries = none) :
    ∀ combined : Str,
      processEntries parsePolicySet rootDir entries combined =
        finishValidation parsePolicySet rootDir
          ((okFiles entries).foldl aggStep combined) := by
  induction entries with
  | nil => intro combined; rfl
  | cons e rest ih =>
      intro combined
      cases e with
      | err m' => simp [firstGlobErr] at h
      | ok f =>
          simp only [firstGlobErr] at h
          simp only [processEntries, okFiles, List.foldl_cons]
          exact ih h (aggStep combined f)

theorem validatorMain_noErr (parsePolicySet : Str → Except String Unit)
    (rootDir : String) (entries : List GlobEntry)
    (h : firstGlobErr entries = none) :
    validatorMain parsePolicySet rootDir true entries =
      finishValidation parsePolicySet rootDir
        (aggregateFiles (okFiles entries)) := by
  unfold validatorMain
  rw [if_pos rfl, processEntries_noErr parsePolicySet rootDir entries h []]
  rfl

theorem validatorMain_globErr (parsePolicySet : Str → Except String Unit)
    (rootDir : String) (entries : List GlobEntry) (m : String)
    (h : firstGlobErr entries = some m) :
    validatorMain parsePolicySet rootDir true entries =
      { exitCode := 3, parserInvoked := false, stdout := [],
        stderr := [Diag.globResolveFailed m] } := by
  unfold validatorMain
  rw [if_pos rfl]
  exact processEntries_globErr parsePolicySet rootDir entries m h []

/-! ## Claim theorems -/

/-- C3: for every policy root and every enumeration of its `*.cedar` files,
the contents of a file named exactly `schema.cedar` are never appended to
the aggregated document, and every other discovered file's contents are
appended: the aggregate is exactly the concatenation of the
newline-terminated contributions of the files whose name differs from
`schema.cedar`, in enumeration order. -/
theorem schema_never_aggregated (files : List PolicyFile) :
    aggregateFiles files =
      ((files.filter fun f => !(f.name == schemaName)).map
        fun f => contribution f.content).flatten := by
  rw [aggregateFiles_eq_join, join_aggPiece_eq_filter]

/-- C4: every non-excluded file's full contents are appended in enumeration
order; a file whose contents already end in a line terminator contributes
them unchanged, otherwise exactly one newline is appended before the next
file's contents, and every contribution ends with a line terminator, so
consecutive files' contributions are separated by at least one newline. -/
theorem aggregation_separates_files (files : List PolicyFile) :
    aggregateFiles files =
      ((files.filter fun f => !(f.name == schemaName)).map
        fun f => contribution f.content).flatten ∧
    (∀ content : Str, endsWithNl content = true →
      contribution content = content) ∧
    (∀ content : Str, endsWithNl content = false →
      contribution content = content ++ ['\n']) ∧
    (∀ content : Str, endsWithNl (contribution content) = true) := by
  refine ⟨?_, ?_, ?_, ?_⟩
  · rw [aggregateFiles_eq_join, join_aggPiece_eq_filter]
  · intro content h; simp [contribution, h]
  · intro content h; simp [contribution, h]
  · exact endsWithNl_contribution

/-- Witness for C4 at a concrete file list: one file without a trailing
newline, whose contribution therefore gains one. -/
theorem aggregation_separates_files_witness :
    aggregateFiles [⟨"a.cedar", ['p']⟩] = ['p', '\n'] ∧
    contribution ['p'] = ['p'] ++ ['\n'] := by
  have h := aggregation_separates_files [⟨"a.cedar", ['p']⟩]
  refine ⟨?_, h.2.2.1 ['p'] (by decide)⟩
  rw [h.1]
  decide

/-- C10: whenever the aggregated document is non-empty, it ends with a line
terminator — the trailing newline is inserted after the last file's
contents too, not only between consecutive files. -/
theorem aggregate_ends_with_newline (files : List PolicyFile)
    (h : aggregateFiles files ≠ []) :
    endsWithNl (aggregateFiles files) = true := by
  rw [aggregateFiles_eq_join, join_aggPiece_eq_filter] at h ⊢
  apply endsWithNl_join
  · intro p hp
    rcases List.mem_map.mp hp with ⟨f, _, rfl⟩
    exact endsWithNl_contribution f.content
  · exact h

/-- Witness for C10: a root with one file not ending in a newline yields a
non-empty aggregate ending in a newline. -/
theorem aggregate_ends_with_newline_witness :
    aggregateFiles [⟨"a.cedar", ['p']⟩] ≠ [] ∧
    endsWithNl (aggregateFiles [⟨"a.cedar", ['p']⟩]) = true := by
  refine ⟨by decide, aggregate_ends_with_newline _ (by decide)⟩

/-- C1: the validator's exit code is one of 0–4, and the five outcomes are
mutually exclusive and exhaustive: 2 exactly when the root is not a
directory; 3 exactly when some glob entry fails to resolve; 4 exactly when
the aggregate trims to empty; 1 exactly when the engine rejects the
aggregated document; 0 exactly when the engine accepts it. -/
theorem validator_exit_code_partition
    (parsePolicySet : Str → Except String Unit) (rootDir : String)
    (rootIsDir : Bool) (entries : List GlobEntry) :
    ((validatorMain parsePolicySet rootDir rootIsDir entries).exitCode = 0 ∨
     (validatorMain parsePolicySet rootDir rootIsDir entries).exitCode = 1 ∨
     (validatorMain parsePolicySet rootDir rootIsDir entries).exitCode = 2 ∨
     (validatorMain parsePolicySet rootDir rootIsDir entries).exitCode = 3 ∨
     (validatorMain parsePolicySet rootDir rootIsDir entries).exitCode = 4) ∧
    ((validatorMain parsePolicySet rootDir rootIsDir entries).exitCode = 2 ↔
      rootIsDir = false) ∧
    ((validatorMain parsePolicySet rootDir rootIsDir entries).exitCode = 3 ↔
      rootIsDir = true ∧ firstGlobErr entries ≠ none) ∧
    ((validatorMain parsePolicySet rootDir rootIsDir entries).exitCode = 4 ↔
      rootIsDir = true ∧ firstGlobErr entries = none ∧
      (trimStr (aggregateFiles (okFiles entries))).isEmpty = true) ∧
    ((validatorMain parsePolicySet rootDir rootIsDir entries).exitCode = 1 ↔
      rootIsDir = true ∧ firstGlobErr entries = none ∧
      (trimStr (aggregateFiles (okFiles entries))).isEmpty = false ∧
      ∃ e, parsePolicySet (aggregateFiles (okFiles entries)) =
        Except.error e) ∧
    ((validatorMain parsePolicySet rootDir rootIsDir entries).exitCode = 0 ↔
      rootIsDir = true ∧ firstGlobErr entries = none ∧
      (trimStr (aggregateFiles (okFiles entries))).isEmpty = false ∧
      parsePolicySet (aggregateFiles (okFiles entries)) = Except.ok ()) := by
  cases rootIsDir with
  | false =>
      have hr : validatorMain parsePolicySet rootDir false entries =
          { exitCode := 2, parserInvoked := false, stdout := [],
            stderr := [Diag.dirNotFound rootDir] } := rfl
      rw [hr]
      simp
  | true =>
      cases hge : firstGlobErr entries with
      | some m =>
          rw [validatorMain_globErr parsePolicySet rootDir entries m hge]
          simp [hge]
      | none =>
          rw [validatorMain_noErr parsePolicySet rootDir entries hge]
          unfold finishValidation
          cases hemp : (trimStr (aggregateFiles (okFiles entries))).isEmpty with
          | true => simp [hge, hemp]
          | false =>
              simp only [hemp, Bool.false_eq_true, if_false]
              cases hp : parsePolicySet (aggregateFiles (okFiles entries)) with
              | ok u => cases u; simp [hge, hemp, hp]
              | error e => simp [hge, hemp, hp]

/-- Witness for C1: a concrete accepting run exits 0, extracted from the
exit-code partition. -/
theorem validator_exit_code_partition_witness :
    (validatorMain (fun _ => Except.ok ()) "policies" true
      [GlobEntry.ok ⟨"a.cedar", ['p']⟩]).exitCode = 0 := by
  exact (validator_exit_code_partition (fun _ => Except.ok ()) "policies" true
    [GlobEntry.ok ⟨"a.cedar", ['p']⟩]).2.2.2.2.2.mpr
    ⟨rfl, rfl, by decide, rfl⟩

/-- C5: when the aggregated buffer trims to empty (no glob error), the
validator reports "no policies found" on the error stream and exits 4,
with `parserInvoked = false`: the engine's policy-set parser is never
invoked, and the result is the same for every parser. -/
theorem validator_no_policies (entries : List GlobEntry)
    (h1 : firstGlobErr entries = none)
    (h2 : (trimStr (aggregateFiles (okFiles entries))).isEmpty = true) :
    ∀ (parsePolicySet : Str → Except String Unit) (rootDir : String),
      validatorMain parsePolicySet rootDir true entries =
        { exitCode := 4, parserInvoked := false, stdout := [],
          stderr := [Diag.noPoliciesFound rootDir] } := by
  intro parsePolicySet rootDir
  rw [validatorMain_noErr parsePolicySet rootDir entries h1]
  unfold finishValidation
  rw [if_pos h2]

/-- Witness for C5: a root containing only `schema.cedar` exits 4 without
invoking the parser. -/
theorem validator_no_policies_witness :
    firstGlobErr [GlobEntry.ok ⟨"schema.cedar", ['p']⟩] = none ∧
    validatorMain (fun _ => Except.ok ()) "policies" true
        [GlobEntry.ok ⟨"schema.cedar", ['p']⟩] =
      { exitCode := 4, parserInvoked := false, stdout := [],
        stderr := [Diag.noPoliciesFound "policies"] } := by
  refine ⟨rfl, validator_no_policies [GlobEntry.ok ⟨"schema.cedar", ['p']⟩]
    rfl (by decide) (fun _ => Except.ok ()) "policies"⟩

/-- C8: the validator is a deterministic function of the root argument, the
discovered entry list and the file contents: two runs whose environments
agree on the directory test and on the glob enumeration for the chosen
root produce the same exit code. -/
theorem validator_deterministic (parsePolicySet : Str → Except String Unit)
    (args : List String) (isDir₁ isDir₂ : String → Bool)
    (entriesFor₁ entriesFor₂ : String → List GlobEntry)
    (hd : isDir₁ (policyDirArg args) = isDir₂ (policyDirArg args))
    (he : entriesFor₁ (policyDirArg args) = entriesFor₂ (policyDirArg args)) :
    (validatorCli parsePolicySet args isDir₁ entriesFor₁).exitCode =
      (validatorCli parsePolicySet args isDir₂ entriesFor₂).exitCode := by
  simp only [validatorCli]
  rw [hd, he]

/-- Witness for C8: two runs over the same concrete environment agree. -/
theorem validator_deterministic_witness :
    (validatorCli (fun _ => Except.ok ()) ["cedar-validate"]
      (fun _ => true) (fun _ => [])).exitCode =
    (validatorCli (fun _ => Except.ok ()) ["cedar-validate"]
      (fun _ => true) (fun _ => [])).exitCode := by
  exact validator_deterministic (fun _ => Except.ok ()) ["cedar-validate"]
    (fun _ => true) (fun _ => true) (fun _ => []) (fun _ => []) rfl rfl

/-- C2: the converter's stages Read, Parse, Serialize, Emit run in that
linear order, each failure exits at its stage with its code and no later
stage entered: read failure exits 2 after Read; empty trimmed input exits
3 after Read; a parse error exits 1 after Parse; a serialization error
exits 4 after Serialize; an encoding error exits 5 during Emit; otherwise
the run exits 0 having entered all four stages. -/
theorem converter_stages_and_codes {P J : Type} (stdin : Except String Str)
    (parsePolicy : Str → Except String P) (toJson : P → Except String J)
    (encodeJson : J → Except String Str) :
    (∀ e, stdin = Except.error e →
      converterMain stdin parsePolicy toJson encodeJson =
        { exitCode := 2, stdout := [], stderr := [CDiag.readFailed],
          stages := [CStage.read] }) ∧
    (∀ input, stdin = Except.ok input → (trimStr input).isEmpty = true →
      converterMain stdin parsePolicy toJson encodeJson =
        { exitCode := 3, stdout := [], stderr := [CDiag.emptyInput],
          stages := [CStage.read] }) ∧
    (∀ input e, stdin = Except.ok input → (trimStr input).isEmpty = false →
      parsePolicy (trimStr input) = Except.error e →
      converterMain stdin parsePolicy toJson encodeJson =
        { exitCode := 1, stdout := [], stderr := [CDiag.parseFailed e],
          stages := [CStage.read, CStage.parse] }) ∧
    (∀ input p e, stdin = Except.ok input → (trimStr input).isEmpty = false →
      parsePolicy (trimStr input) = Except.ok p →
      toJson p = Except.error e →
      converterMain stdin parsePolicy toJson encodeJson =
        { exitCode := 4, stdout := [], stderr := [CDiag.serializeFailed e],
          stages := [CStage.read, CStage.parse, CStage.serialize] }) ∧
    (∀ input p j e, stdin = Except.ok input →
      (trimStr input).isEmpty = false →
      parsePolicy (trimStr input) = Except.ok p → toJson p = Except.ok j →
      encodeJson j = Except.error e →
      converterMain stdin parsePolicy toJson encodeJson =
        { exitCode := 5, stdout := [], stderr := [CDiag.encodeFailed e],
          stages := [CStage.read, CStage.parse, CStage.serialize,
                     CStage.emit] }) ∧
    (∀ input p j out, stdin = Except.ok input →
      (trimStr input).isEmpty = false →
      parsePolicy (trimStr input) = Except.ok p → toJson p = Except.ok j →
      encodeJson j = Except.ok out →
      converterMain stdin parsePolicy toJson encodeJson =
        { exitCode := 0, stdout := [out], stderr := [],
          stages := [CStage.read, CStage.parse, CStage.serialize,
                     CStage.emit] }) := by
  refine ⟨?_, ?_, ?_, ?_, ?_, ?_⟩
  · intro e h; subst h; rfl
  · intro input h hemp; subst h
    simp [converterMain, hemp]
  · intro input e h hemp hp; subst h
    simp [converterMain, hemp, hp]
  · intro input p e h hemp hp hj; subst h
    simp [converterMain, hemp, hp, hj]
  · intro input p j e h hemp hp hj he; subst h
    simp [converterMain, hemp, hp, hj, he]
  · intro input p j out h hemp hp hj he; subst h
    simp [converterMain, hemp, hp, hj, he]

/-- Witness for C2: a concrete successful run passes through all four
stages and exits 0 with one output line. -/
theorem converter_stages_and_codes_witness :
    converterMain (Except.ok ['p']) (fun _ => Except.ok ())
        (fun _ : Unit => Except.ok ()) (fun _ : Unit => Except.ok ['x']) =
      { exitCode := 0, stdout := [['x']], stderr := [],
        stages := [CStage.read, CStage.parse, CStage.serialize,
                   CStage.emit] } := by
  exact (converter_stages_and_codes (Except.ok ['p']) (fun _ => Except.ok ())
    (fun _ : Unit => Except.ok ()) (fun _ : Unit => Except.ok ['x'])
    ).2.2.2.2.2 ['p'] () () ['x'] rfl (by decide) rfl rfl rfl

/-- C6: empty or whitespace-only standard input makes the converter exit 3
straight after the Read stage — no parse attempt, nothing on standard
output, for every parser — while an I/O failure of the read itself exits
with the distinct code 2. -/
theorem converter_empty_input {P J : Type}
    (parsePolicy : Str → Except String P) (toJson : P → Except String J)
    (encodeJson : J → Except String Str) (input : Str)
    (h : (trimStr input).isEmpty = true) :
    converterMain (Except.ok input) parsePolicy toJson encodeJson =
      { exitCode := 3, stdout := [], stderr := [CDiag.emptyInput],
        stages := [CStage.read] } ∧
    (∀ msg, converterMain (Except.error msg) parsePolicy toJson encodeJson =
      { exitCode := 2, stdout := [], stderr := [CDiag.readFailed],
        stages := [CStage.read] }) := by
  constructor
  · simp [converterMain, h]
  · intro msg; rfl

/-- Witness for C6: a whitespace-only input exits 3 with empty standard
output. -/
theorem converter_empty_input_witness :
    (trimStr [' ', '\n']).isEmpty = true ∧
    converterMain (Except.ok [' ', '\n']) (fun _ => Except.ok ())
        (fun _ : Unit => Except.ok ()) (fun _ : Unit => Except.ok ['x']) =
      { exitCode := 3, stdout := [], stderr := [CDiag.emptyInput],
        stages := [CStage.read] } := by
  refine ⟨by decide, (converter_empty_input (fun _ => Except.ok ())
    (fun _ : Unit => Except.ok ()) (fun _ : Unit => Except.ok ['x'])
    [' ', '\n'] (by decide)).1⟩

theorem finishValidation_stdout (parsePolicySet : Str → Except String Unit)
    (rootDir : String) (combined : Str) :
    (finishValidation parsePolicySet rootDir combined).stdout = [] := by
  unfold finishValidation
  split
  · rfl
  · split <;> rfl

theorem processEntries_stdout (parsePolicySet : Str → Except String Unit)
    (rootDir : String) :
    ∀ (entries : List GlobEntry) (combined : Str),
      (processEntries parsePolicySet rootDir entries combined).stdout = [] := by
  intro entries
  induction entries with
  | nil => intro c; exact finishValidation_stdout parsePolicySet rootDir c
  | cons e rest ih =>
      intro c
      cases e with
      | err m => rfl
      | ok f => exact ih (aggStep c f)

/-- C7: on any failing converter run nothing is written to standard output;
on a successful run exactly one line is written; the validator writes
nothing to standard output on any run. -/
theorem output_discipline {P J : Type} (stdin : Except String Str)
    (parsePolicy : Str → Except String P) (toJson : P → Except String J)
    (encodeJson : J → Except String Str) :
    ((converterMain stdin parsePolicy toJson encodeJson).exitCode ≠ 0 →
      (converterMain stdin parsePolicy toJson encodeJson).stdout = []) ∧
    ((converterMain stdin parsePolicy toJson encodeJson).exitCode = 0 →
      ∃ out, (converterMain stdin parsePolicy toJson encodeJson).stdout =
        [out]) ∧
    (∀ (parsePolicySet : Str → Except String Unit) (rootDir : String)
       (rootIsDir : Bool) (entries : List GlobEntry),
      (validatorMain parsePolicySet rootDir rootIsDir entries).stdout = []) := by
  have hv : ∀ (parsePolicySet : Str → Except String Unit) (rootDir : String)
      (rootIsDir : Bool) (entries : List GlobEntry),
      (validatorMain parsePolicySet rootDir rootIsDir entries).stdout = [] := by
    intro p r d es
    unfold validatorMain
    split
    · exact processEntries_stdout p r es []
    · rfl
  refine ⟨?_, ?_, hv⟩
  all_goals
    rcases stdin with msg | input
  · intro _; rfl
  · cases hemp : (trimStr input).isEmpty with
    | true => intro _; simp [converterMain, hemp]
    | false =>
        cases hp : parsePolicy (trimStr input) with
        | error e => intro _; simp [converterMain, hemp, hp]
        | ok p =>
            cases hj : toJson p with
            | error e => intro _; simp [converterMain, hemp, hp, hj]
            | ok j =>
                cases he : encodeJson j with
                | error e => intro _; simp [converterMain, hemp, hp, hj, he]
                | ok out =>
                    intro h0
                    exact absurd (show (converterMain (Except.ok input)
                      parsePolicy toJson encodeJson).exitCode = 0 by
                        simp [converterMain, hemp, hp, hj, he]) h0
  · intro h0
    simp [converterMain] at h0
  · cases hemp : (trimStr input).isEmpty with
    | true =>
        intro h0
        simp [converterMain, hemp] at h0
    | false =>
        cases hp : parsePolicy (trimStr input) with
        | error e =>
            intro h0
            simp [converterMain, hemp, hp] at h0
        | ok p =>
            cases hj : toJson p with
            | error e =>
                intro h0
                simp [converterMain, hemp, hp, hj] at h0
            | ok j =>
                cases he : encodeJson j with
                | error e =>
                    intro h0
                    simp [converterMain, hemp, hp, hj, he] at h0
                | ok out =>
                    intro _
                    exact ⟨out, by simp [converterMain, hemp, hp, hj, he]⟩

/-- Witness for C7: a read failure exits non-zero with empty standard
output. -/
theorem output_discipline_witness :
    (converterMain (Except.error "io") (fun _ => Except.ok ())
      (fun _ : Unit => Except.ok ())
      (fun _ : Unit => Except.ok ['x'])).stdout = [] := by
  exact (output_discipline (Except.error "io") (fun _ => Except.ok ())
    (fun _ : Unit => Except.ok ()) (fun _ : Unit => Except.ok ['x'])).1
    (by decide)

/-- C9: on a syntactically valid policy (and an engine honouring its
contract that decoding an encoded value yields that value back), the
converter exits 0, prints exactly the one encoded line, and re-parsing
that line reproduces the structured value that was emitted. -/
theorem converter_roundtrip {P J : Type}
    (parsePolicy : Str → Except String P) (toJson : P → Except String J)
    (encodeJson : J → Except String Str)
    (decodeJson : Str → Except String J)
    (hdec : ∀ (j : J) (out : Str), encodeJson j = Except.ok out →
      decodeJson out = Except.ok j)
    (input : Str) (p : P) (j : J) (out : Str)
    (hne : (trimStr input).isEmpty = false)
    (hp : parsePolicy (trimStr input) = Except.ok p)
    (hj : toJson p = Except.ok j)
    (he : encodeJson j = Except.ok out) :
    (converterMain (Except.ok input) parsePolicy toJson
      encodeJson).exitCode = 0 ∧
    (converterMain (Except.ok input) parsePolicy toJson
      encodeJson).stdout = [out] ∧
    decodeJson out = Except.ok j := by
  refine ⟨?_, ?_, hdec j out he⟩ <;> simp [converterMain, hne, hp, hj, he]

/-- Witness for C9: a concrete run with a toy engine whose decoder inverts
its encoder. -/
theorem converter_roundtrip_witness :
    (converterMain (Except.ok ['p']) (fun _ => Except.ok ())
      (fun _ : Unit => Except.ok ())
      (fun _ : Unit => Except.ok ['x'])).exitCode = 0 ∧
    (converterMain (Except.ok ['p']) (fun _ => Except.ok ())
      (fun _ : Unit => Except.ok ())
      (fun _ : Unit => Except.ok ['x'])).stdout = [['x']] ∧
    (fun _ : Str => (Except.ok () : Except String Unit)) ['x'] =
      Except.ok () := by
  exact converter_roundtrip (fun _ => Except.ok ())
    (fun _ : Unit => Except.ok ()) (fun _ : Unit => Except.ok ['x'])
    (fun _ : Str => Except.ok ()) (fun _ _ _ => rfl)
    ['p'] () () ['x'] (by decide) rfl rfl rfl

end Raja
